import Mathlib

/-!
# Shallow embedding of the `log-stream` repository

This file embeds the two Python source files of the repository,
`src/log_stream.py` (the Tailer / Dispatcher, class `LogStream`) and
`src/log_tracking_app.py` (the record parsers, geo enrichment, rate
statistics and `main`), as executable Lean definitions, and proves
properties of those definitions.

Embedding conventions:

* Python strings are Lean `String`s; `str.split(sep)` (nonempty `sep`),
  `str.strip()`, `str.lower()` and `int(...)` are re-implemented
  character-exactly on `List Char` (`pySplit`, `pyStrip`, `pyLower`,
  `pyInt?`).
* Python dicts appearing in the code are association lists
  (`List (String × _)`); assignment keeps the first occurrence's position
  and overwrites its value (`dinsert`), lookup takes the first matching
  key (`pyGet`).  All dicts the program builds have distinct keys.
* Fallible code returns `Except PyErr _`; an uncaught Python exception is
  an `.error` value.  A Python function that can also `return None` wraps
  its result in `Option`.
* Timestamps: the arrival timestamp (`logline["timestamp"]`, an ISO-8601
  string produced with `dt.utcnow().isoformat()`) is modelled as the
  instant itself, a rational number of seconds; `dt.fromisoformat` applied
  to it in `make_stats` is then the identity.  `(t1 - t0).total_seconds()`
  is rational subtraction.  Python floats are modelled by `ℚ`, which is
  exact on all inputs considered here.
* `datetime.strptime(_, "%Y %b %d %X")` inside `format_timestamp` is
  modelled field-by-field (`monthNum`, `parseHMS`, day-of-month range
  checks including the leap rule used by `datetime`); `dt.today().year`
  is passed in as an explicit `year` parameter.
* The `geoip2` library is external: its `Reader.city` is an abstract
  partial lookup `GeoDB : String → Option GeoInfo`; an absent entry makes
  `reader.city` raise (`AddressNotFoundError`), modelled as an error,
  because `geo_data` itself contains no handler.
* `re.findall` truthiness in `LogStream._matches` is an abstract matcher
  `String → Bool`; the coroutine fan-out of `LogStream.stream` is a pure
  per-line function (`LogStream.streamLine`), as each coroutine keeps no
  state across lines.  `LogStream.tail` is a step-indexed state machine
  over a time-varying file content.
-/

/-- Python exception kinds that can escape the embedded code. -/
inductive PyErr where
  /-- `ValueError` (failed tuple unpacking, bad `int()`, failed `strptime`). -/
  | valueError
  /-- `TypeError` (e.g. unpacking `None`). -/
  | typeError
  /-- `IndexError` (list index out of range). -/
  | indexError
  /-- `KeyError` (dict lookup miss). -/
  | keyError
  /-- A `geoip2` lookup error (`AddressNotFoundError` / bad address). -/
  | geoLookupError
  deriving DecidableEq, Repr

/-! ## Python string primitives -/

/-- The whitespace characters stripped by Python's `str.strip()` (ASCII part). -/
def pySpace (c : Char) : Bool :=
  c = ' ' || c = '\t' || c = '\n' || c = '\x0d' || c = '\x0b' || c = '\x0c'

/-- Python `str.strip()`: drop leading and trailing whitespace. -/
def pyStrip (s : String) : String :=
  String.mk (((s.toList.dropWhile pySpace).reverse.dropWhile pySpace).reverse)

/-- ASCII lower-casing of one character (Python `str.lower()` on the
alphabets appearing in this program). -/
def lowerChar (c : Char) : Char :=
  if 'A' ≤ c ∧ c ≤ 'Z' then Char.ofNat (c.toNat + 32) else c

/-- Python `str.lower()`. -/
def pyLower (s : String) : String :=
  String.mk (s.toList.map lowerChar)

/-- `isPrefixList sep cs`: does `cs` start with `sep`? -/
def isPrefixList : List Char → List Char → Bool
  | [], _ => true
  | _ :: _, [] => false
  | a :: as, b :: bs => a = b && isPrefixList as bs

/-- First occurrence of `sep` in `cs`: the part before it and the part
after it, or `none` when `sep` does not occur. -/
def findSplit (sep : List Char) : List Char → Option (List Char × List Char)
  | [] => none
  | c :: cs =>
    if isPrefixList sep (c :: cs) then some ([], List.drop sep.length (c :: cs))
    else
      match findSplit sep cs with
      | none => none
      | some (b, a) => some (c :: b, a)

/-- Fuelled splitting of a character list on a separator occurrence;
`fuel` larger than the list length makes the fuel bound unreachable. -/
def splitListF (sep : List Char) : ℕ → List Char → List (List Char)
  | 0, cs => [cs]
  | fuel + 1, cs =>
    match findSplit sep cs with
    | none => [cs]
    | some (b, a) => b :: splitListF sep fuel a

/-- Python `s.split(sep)` for a nonempty separator: every occurrence of
`sep` separates fields; leading, trailing and repeated separators yield
empty fields.  (Python raises on an empty separator; the program never
passes one.) -/
def pySplit (s sep : String) : List String :=
  if sep.toList.isEmpty then [s]
  else (splitListF sep.toList (s.toList.length + 1) s.toList).map String.mk

/-- Decimal digit test. -/
def isDigitChar (c : Char) : Bool := '0' ≤ c && c ≤ '9'

/-- Decimal value of a digit list. -/
def digitsToNat (ds : List Char) : ℕ :=
  ds.foldl (fun acc c => 10 * acc + (c.toNat - '0'.toNat)) 0

/-- Python `int(s)` on a decimal string: optional surrounding whitespace,
optional sign, then digits; anything else raises `ValueError` (`none`). -/
def pyInt? (s : String) : Option ℤ :=
  match (pyStrip s).toList with
  | [] => none
  | '+' :: ds =>
    if !ds.isEmpty && ds.all isDigitChar then some (digitsToNat ds) else none
  | '-' :: ds =>
    if !ds.isEmpty && ds.all isDigitChar then some (-(digitsToNat ds : ℤ)) else none
  | ds =>
    if ds.all isDigitChar then some (digitsToNat ds) else none

/-! ## Python dict primitives (association lists) -/

/-- Python dict lookup `d[q]`: first entry with the queried key. -/
def pyGet {α : Type} : List (String × α) → String → Option α
  | [], _ => none
  | (k, v) :: rest, q => if q = k then some v else pyGet rest q

/-- Python dict assignment `d[k] = v`: overwrite the value at the first
occurrence of `k`, keeping its position, or append a new entry. -/
def dinsert : List (String × Option String) → String → Option String →
    List (String × Option String)
  | [], k, v => [(k, v)]
  | (k', v') :: rest, k, v =>
    if k' = k then (k', v) :: rest else (k', v') :: dinsert rest k v

/-! ## `log_tracking_app.py`: data model -/

/-- The event timestamp produced by `datetime.strptime`; the year is the
current year (`dt.today().year`), a documented precision loss. -/
structure DateTime where
  year : ℕ
  month : ℕ
  day : ℕ
  hour : ℕ
  minute : ℕ
  second : ℕ
  deriving DecidableEq, Repr

/-- A logline as posted by `log_stream.py` and consumed by `main`:
`{"type": …, "content": …, "timestamp": …}`.  The arrival timestamp is
modelled as the instant itself (seconds, rational). -/
structure Logline where
  type : String
  content : String
  timestamp : ℚ
  deriving DecidableEq

/-- The common dict built by `record_parse`:
`{"host": …, "event_time": …, "timestamp": …}`. -/
structure Common where
  host : String
  event_time : DateTime
  timestamp : ℚ
  deriving DecidableEq, Repr

/-- The dict built by `geo_data` from a successful `reader.city` lookup.
All components may be absent in the database. -/
structure GeoInfo where
  iso_code : Option String
  country : Option String
  subdivision : Option String
  city : Option String
  lat : Option ℚ
  lon : Option ℚ
  deriving DecidableEq, Repr

/-- The external GeoIP database: `reader.city` succeeds exactly on the
addresses the database maps. -/
def GeoDB : Type := String → Option GeoInfo

/-- The merged record dict produced by the `log_decorator` wrapper:
`{**cdct, **pdct, "type": rec_type, "geoip": geoip}`.  The common fields
and the type-specific field set are kept apart (no payload key of the
loglines considered here collides with a common key). -/
structure Record where
  host : String
  event_time : DateTime
  timestamp : ℚ
  fields : List (String × Option String)
  type : String
  geoip : GeoInfo
  deriving DecidableEq

/-! ## `log_tracking_app.py`: parsing -/

/-- The month abbreviations accepted by `strptime`'s `%b` (C locale,
case-insensitive). -/
def monthNames : List String :=
  ["jan", "feb", "mar", "apr", "may", "jun",
   "jul", "aug", "sep", "oct", "nov", "dec"]

/-- `%b`: month number from a (case-insensitive) abbreviation. -/
def monthNum (mo : String) : Option ℕ :=
  (monthNames.findIdx? (fun n => n == pyLower mo)).map (· + 1)

/-- A 1–2 digit decimal component, as matched inside `%X`. -/
def parseNum2 (s : String) : Option ℕ :=
  let cs := s.toList
  if !cs.isEmpty && decide (cs.length ≤ 2) && cs.all isDigitChar then
    some (digitsToNat cs)
  else none

/-- `%X` = `%H:%M:%S`: hours, minutes, seconds, each 1–2 digits, fully
consuming the token (`strptime` rejects leftover characters; `datetime`
rejects out-of-range components). -/
def parseHMS (s : String) : Option (ℕ × ℕ × ℕ) :=
  match pySplit s ":" with
  | [h, m, sec] =>
    match parseNum2 h, parseNum2 m, parseNum2 sec with
    | some hh, some mi, some ss =>
      if hh ≤ 23 ∧ mi ≤ 59 ∧ ss ≤ 59 then some (hh, mi, ss) else none
    | _, _, _ => none
  | _ => none

/-- The Gregorian leap-year rule used by `datetime`. -/
def isLeap (y : ℕ) : Bool :=
  y % 4 == 0 && (y % 100 != 0 || y % 400 == 0)

/-- Days in a month, as validated by the `datetime` constructor. -/
def daysInMonth (y m : ℕ) : ℕ :=
  if m = 2 then (if isLeap y then 29 else 28)
  else if m = 4 ∨ m = 6 ∨ m = 9 ∨ m = 11 then 30
  else 31

/-- `format_timestamp(mo, day, hhmm)`: formats
`f"{year} {mo} {int(day):2d} {hhmm}"` and parses it with
`strptime "%Y %b %d %X"`.  `int(day)` raises on a non-integer token; `%d`
only matches 1–2 digits, and the `datetime` constructor validates the day
against the month; any failure is a `ValueError` (`none`). -/
def format_timestamp (year : ℕ) (mo day hhmm : String) : Option DateTime :=
  match pyInt? day, monthNum mo, parseHMS hhmm with
  | some d, some m, some (hh, mi, ss) =>
    if 1 ≤ d ∧ d ≤ (daysInMonth year m : ℤ) then
      some ⟨year, m, d.toNat, hh, mi, ss⟩
    else none
  | _, _, _ => none

/-- The metadata tokens: `[s for s in meta.split(" ") if s]`. -/
def metaTokens (meta : String) : List String :=
  (pySplit meta " ").filter (fun s => s != "")

/-- `record_parse(logline, split_with)`: split the content once on the
type-specific delimiter (`meta, rec = …` needs exactly two parts), read
`mo, day, hhmm, host, *_` from the metadata, build the event timestamp,
and return the common dict together with the space-split payload.  Every
failure is a `ValueError`. -/
def record_parse (year : ℕ) (ll : Logline) (split_with : String) :
    Except PyErr (Common × List String) :=
  match pySplit ll.content split_with with
  | [meta, payload] =>
    match metaTokens meta with
    | mo :: day :: hhmm :: host :: _ =>
      match format_timestamp year mo day hhmm with
      | some et => .ok (⟨host, et, ll.timestamp⟩, pySplit payload " ")
      | none => .error .valueError
    | _ => .error .valueError
  | _ => .error .valueError

/-- One step of the `parse_ufw_block` dict comprehension:
`{ss[0]: ss[1] or None for s in rec if len(ss := s.split("=")) == 2}` —
a token splitting on `"="` into exactly two parts contributes its key and
value (an empty value becomes `None`); every other token is skipped. -/
def ufwStep (d : List (String × Option String)) (s : String) :
    List (String × Option String) :=
  match pySplit s "=" with
  | [k, v] => dinsert d k (if v = "" then none else some v)
  | _ => d

/-- The field set extracted from a firewall-block payload. -/
def ufwFields (payload : List String) : List (String × Option String) :=
  payload.foldl ufwStep []

/-- The body of `parse_ufw_block` (before the decorator). -/
def parse_ufw_block_inner (year : ℕ) (ll : Logline) :
    Except PyErr (Option (Common × List (String × Option String))) :=
  match record_parse year ll " [UFW BLOCK] " with
  | .error e => .error e
  | .ok (c, payload) => .ok (some (c, ufwFields payload))

/-- The SSH sub-format table of `parse_ssh_invalid`: delimiter, (unused)
variant tag, and the payload token indices for DPT, SRC, USERNAME. -/
def sshVariants : List (String × String × ℕ × ℕ × ℕ) :=
  [(": Invalid user ", "SSH_INVALID", (4, 2, 0)),
   (": Connection closed by authenticating user ", "SSH_AUTH", (3, 1, 0))]

/-- The variant loop of `parse_ssh_invalid`: try each sub-format in
order; a `ValueError` from `record_parse` is caught and the next variant
is tried; an out-of-range payload index raises an uncaught `IndexError`;
falling off the loop returns `None`. -/
def sshTryVariants (year : ℕ) (ll : Logline) :
    List (String × String × ℕ × ℕ × ℕ) →
    Except PyErr (Option (Common × List (String × Option String)))
  | [] => .ok none
  | (split_by, _variant, i0, i1, i2) :: rest =>
    match record_parse year ll split_by with
    | .error .valueError => sshTryVariants year ll rest
    | .error e => .error e
    | .ok (c, payload) =>
      match payload[i0]?, payload[i1]?, payload[i2]? with
      | some dpt, some src, some user =>
        .ok (some (c, [("DPT", some dpt), ("SRC", some src),
                       ("USERNAME", some user)]))
      | _, _, _ => .error .indexError

/-- The body of `parse_ssh_invalid` (before the decorator). -/
def parse_ssh_invalid_inner (year : ℕ) (ll : Logline) :
    Except PyErr (Option (Common × List (String × Option String))) :=
  sshTryVariants year ll sshVariants

/-- `geo_data(ipaddr)`: open the database, look the address up, and build
the geo dict.  The function has no exception handler: a missing address
(`AddressNotFoundError`) or a non-address argument (such as `None`)
raises, and the error propagates to the caller. -/
def geo_data (db : GeoDB) (ip : Option String) : Except PyErr GeoInfo :=
  match ip with
  | none => .error .geoLookupError
  | some addr =>
    match db addr with
    | some g => .ok g
    | none => .error .geoLookupError

/-- The `log_decorator(ip_key)` wrapper: unpack the parser's result
(`cdct, pdct = func(...)` — a `None` result raises `TypeError`), read the
IP from `pdct[ip_key]` (`KeyError` if absent), enrich via `geo_data`
(whose errors propagate), and merge everything into the record dict. -/
def log_decorator (db : GeoDB) (ip_key rec_type : String)
    (res : Except PyErr (Option (Common × List (String × Option String)))) :
    Except PyErr Record :=
  match res with
  | .error e => .error e
  | .ok none => .error .typeError
  | .ok (some (cdct, pdct)) =>
    match pyGet pdct ip_key with
    | none => .error .keyError
    | some ipv =>
      match geo_data db ipv with
      | .error e => .error e
      | .ok g => .ok ⟨cdct.host, cdct.event_time, cdct.timestamp, pdct, rec_type, g⟩

/-- `parse_ufw_block` as decorated with `@log_decorator("SRC")`. -/
def parse_ufw_block (db : GeoDB) (year : ℕ) (ll : Logline) : Except PyErr Record :=
  log_decorator db "SRC" "UFW_BLOCK" (parse_ufw_block_inner year ll)

/-- `parse_ssh_invalid` as decorated with `@log_decorator("SRC")`. -/
def parse_ssh_invalid (db : GeoDB) (year : ℕ) (ll : Logline) : Except PyErr Record :=
  log_decorator db "SRC" "SSH_INVALID" (parse_ssh_invalid_inner year ll)

/-! ## `log_tracking_app.py`: rate statistics -/

/-- `defaultdict(list)` append `sdct[k].append(t)`: extend the first
entry with the key, or create a new one at the end. -/
def ginsert : List (String × List ℚ) → String → ℚ → List (String × List ℚ)
  | [], k, t => [(k, [t])]
  | (k', v) :: rest, k, t =>
    if k' = k then (k', v ++ [t]) :: rest else (k', v) :: ginsert rest k t

/-- One iteration of the first `make_stats` loop: `None` records are
skipped, others contribute their arrival timestamp to their type's
bucket. -/
def gstep (acc : List (String × List ℚ)) (orec : Option Record) :
    List (String × List ℚ) :=
  match orec with
  | none => acc
  | some r => ginsert acc r.type r.timestamp

/-- The per-type timestamp buckets `sdct` built by `make_stats`. -/
def groupTimes (history : List (Option Record)) : List (String × List ℚ) :=
  history.foldl gstep []

/-- One entry of the `make_stats` result:
`{"rate_min": 60 / sum(tdiff) * len(tdiff), "count": len(v)}`. -/
structure Stats where
  rate_min : ℚ
  count : ℕ
  deriving DecidableEq, Repr

/-- The second `make_stats` loop body for one bucket: consecutive-event
gaps in seconds; when their sum is zero the division raises
`ZeroDivisionError`, which is caught and the entry is skipped (`none`). -/
def statsOf (v : List ℚ) : Option Stats :=
  let tdiff := (v.zip v.tail).map (fun p => p.2 - p.1)
  if tdiff.sum = 0 then none
  else some ⟨60 / tdiff.sum * (tdiff.length : ℚ), v.length⟩

/-- `make_stats(history)`: group all (non-`None`) records by type, then
report, for each type whose gap sum is nonzero, the fitted
events-per-minute rate and the raw count. -/
def make_stats (history : List (Option Record)) : List (String × Stats) :=
  (groupTimes history).filterMap (fun kv => (statsOf kv.2).map (fun s => (kv.1, s)))

/-- All arrival timestamps of records of type `k` in the history, in
order — what `make_stats` in fact aggregates over. -/
def typeTimes (history : List (Option Record)) (k : String) : List ℚ :=
  history.filterMap (fun o =>
    match o with
    | none => none
    | some r => if r.type = k then some r.timestamp else none)

/-- The inter-arrival gap sum of a timestamp list (the `sum(tdiff)` of
`make_stats`). -/
def tdiffSum (v : List ℚ) : ℚ :=
  ((v.zip v.tail).map (fun p => p.2 - p.1)).sum

/-- Modelled from the spec: the trailing-window event count the Rate
Estimator is specified to report — events of the type whose arrival
timestamp falls within `now - windowHours … now`.  (`make_stats` in the
source has no such parameter; this definition exists to compare the
specified behaviour with the implemented one.) -/
def spec_inWindowCount (history : List (Option Record)) (k : String)
    (now windowHours : ℚ) : ℕ :=
  ((typeTimes history k).filter
    (fun t => decide (now - windowHours * 3600 ≤ t ∧ t ≤ now))).length

/-! ## `log_tracking_app.py`: page and `main` -/

/-- The parameters `make_page` hands to the external template renderer
(the template itself, `world.json` and the environment-derived user
fields are external collaborators). -/
structure PageParams where
  data : List (Option Record)
  tablelen : ℕ
  stats : List (String × Stats)
  deriving DecidableEq

/-- `make_page(history, tablelen, stats)`. -/
def make_page (history : List (Option Record)) (tablelen : ℕ)
    (stats : List (String × Stats)) : PageParams :=
  ⟨history, tablelen, stats⟩

/-- The dict returned by `main`. -/
structure MainOut where
  record : Option Record
  html : PageParams
  stats : List (String × Stats)
  deriving DecidableEq

namespace LogTrackingApp

/-- `main(logline, record=None, tablelen=10)`: a falsy logline (modelled
as `none`) produces no new record; otherwise the parser is selected by
the string `"parse_" + logline["type"].lower()` in `globals()` (an
unknown type raises `KeyError`) and its exceptions propagate.  The
history handed to `make_stats` and `make_page` is
`(record or []) + [new_record]` when a new record exists and `[]`
otherwise.  (Namespaced: a bare top-level `main` is reserved for program
entry points.) -/
def main (db : GeoDB) (year : ℕ) (logline : Option Logline)
    (record : Option (List (Option Record))) (tablelen : ℕ) :
    Except PyErr MainOut :=
  match logline with
  | none =>
    let history : List (Option Record) := []
    let stats := make_stats history
    .ok ⟨none, make_page history tablelen stats, stats⟩
  | some ll =>
    let fn := "parse_" ++ pyLower ll.type
    let parsed : Except PyErr Record :=
      if fn = "parse_ufw_block" then parse_ufw_block db year ll
      else if fn = "parse_ssh_invalid" then parse_ssh_invalid db year ll
      else .error .keyError
    match parsed with
    | .error e => .error e
    | .ok nr =>
      let history := (record.getD []) ++ [some nr]
      let stats := make_stats history
      .ok ⟨some nr, make_page history tablelen stats, stats⟩

end LogTrackingApp

/-! ## `log_stream.py`: `LogStream` -/

namespace LogStream

/-- An abstract compiled pattern: the truthiness of
`re.findall(re_str, record)`. -/
def Regex : Type := String → Bool

/-- The per-record body of the `_matches` coroutine: strip the received
line, and post it when the pattern matches.  The result is the list of
records posted for this line (empty or a singleton). -/
def _matches (m : Regex) (line : String) : List String :=
  let record := pyStrip line
  if m record then [record] else []

/-- The per-line body of `stream`'s inner loop: the line is sent to every
matcher coroutine in order; the result is the concatenation of the
records posted.  (The coroutines keep no state between lines, so the
fan-out is a pure function of the line.) -/
def streamLine (regexes : List Regex) (line : String) : List String :=
  match regexes with
  | [] => []
  | m :: rest => _matches m line ++ streamLine rest line

/-- `tail(fh)` as a step-indexed state machine.  `contentAt i` is the
line list of the growing file at step `i`.  The state after `k` steps is
`(lines yielded so far, read position)`; `tail` starts by seeking to the
current end of file (`fh.seek(0, 2)`), and each step either reads the
next line (`readline` returns it, and it is yielded) or, at end of file,
sleeps and leaves the state unchanged.  The generator never terminates:
the state is defined after every number of steps. -/
def tail (contentAt : ℕ → List String) : ℕ → List String × ℕ
  | 0 => ([], (contentAt 0).length)
  | k + 1 =>
    let p := tail contentAt k
    match (contentAt (k + 1))[p.2]? with
    | some l => (p.1 ++ [l], p.2 + 1)
    | none => p

end LogStream

/-! ## Sample inputs -/

/-- A GeoIP database with no entries: every `reader.city` call raises
`AddressNotFoundError`. -/
def emptyGeoDB : GeoDB := fun _ => none

/-- A well-formed firewall-block logline. -/
def sampleUfwLogline : Logline :=
  ⟨"UFW_BLOCK",
   "Oct 12 02:14:33 myhost kernel: [UFW BLOCK] SRC=10.9.9.9 DPT=22 PROTO=TCP",
   100⟩

/-- An SSH logline matching only the second sub-format
(`": Connection closed by authenticating user "`). -/
def sampleSshAuthLogline : Logline :=
  ⟨"SSH_INVALID",
   "Oct 12 02:14:33 myhost sshd[999]: Connection closed by authenticating user root 10.0.0.5 port 51515 [preauth]",
   200⟩

/-- An SSH logline matching neither declared sub-format. -/
def sampleSshBadLogline : Logline :=
  ⟨"SSH_INVALID",
   "Oct 12 02:14:33 myhost sshd[12]: Failed password for root from 10.0.0.5 port 22",
   300⟩

/-- A record carrying only the data `make_stats` reads: its type tag and
arrival timestamp. -/
def mkRec (k : String) (t : ℚ) : Record :=
  ⟨"myhost", ⟨2026, 1, 1, 0, 0, 0⟩, t, [], k, ⟨none, none, none, none, none, none⟩⟩

/-- Two events of one type 100 hours apart. -/
def farApartHistory : List (Option Record) :=
  [some (mkRec "UFW_BLOCK" 0), some (mkRec "UFW_BLOCK" 360000)]

/-- A growing file for the Tailer: two lines present at start, one line
`"x"` appended at every step. -/
def tailContentW : ℕ → List String :=
  fun i => ["old1", "old2"] ++ List.replicate i "x"

/-- Witness matcher set: match-all, match-none, match-all. -/
def regsW : List LogStream.Regex := [fun _ => true, fun _ => false, fun _ => true]


/-! ## Helper lemmas: dict and bucket operations -/

theorem typeTimes_nil (q : String) : typeTimes [] q = [] := rfl

theorem typeTimes_cons_none (tl : List (Option Record)) (q : String) :
    typeTimes (none :: tl) q = typeTimes tl q := rfl

theorem typeTimes_cons_some (r : Record) (tl : List (Option Record)) (q : String) :
    typeTimes (some r :: tl) q =
      if r.type = q then r.timestamp :: typeTimes tl q else typeTimes tl q := by
  unfold typeTimes
  rw [List.filterMap_cons]
  by_cases h : r.type = q <;> simp [h]

theorem pyGet_cons {α : Type} (k : String) (v : α) (tl : List (String × α)) (q : String) :
    pyGet ((k, v) :: tl) q = if q = k then some v else pyGet tl q := rfl

theorem pyGet_ginsert (d : List (String × List ℚ)) (k : String) (t : ℚ) (q : String) :
    pyGet (ginsert d k t) q =
      if q = k then some ((pyGet d k).getD [] ++ [t]) else pyGet d q := by
  induction d with
  | nil =>
    by_cases hq : q = k <;> simp [ginsert, pyGet, hq]
  | cons hd tl ih =>
    obtain ⟨k', v⟩ := hd
    by_cases hk : k' = k
    · subst hk
      by_cases hq : q = k' <;> simp [ginsert, pyGet, hq]
    · have hk' : ¬k = k' := fun hh => hk hh.symm
      by_cases hq : q = k'
      · subst hq
        simp [ginsert, hk, pyGet]
      · simp [ginsert, hk, pyGet, hq, ih, hk']

theorem pyGet_foldl_gstep_getD (h : List (Option Record)) :
    ∀ (acc : List (String × List ℚ)) (q : String),
      (pyGet (h.foldl gstep acc) q).getD [] = (pyGet acc q).getD [] ++ typeTimes h q := by
  induction h with
  | nil => intro acc q; simp [typeTimes]
  | cons o tl ih =>
    intro acc q
    cases o with
    | none => simpa [gstep, typeTimes_cons_none] using ih acc q
    | some r =>
      simp only [List.foldl_cons, gstep, typeTimes_cons_some]
      by_cases hq : r.type = q
      · subst hq
        rw [if_pos rfl, ih, pyGet_ginsert, if_pos rfl]
        simp
      · have hq' : ¬q = r.type := fun hh => hq hh.symm
        rw [if_neg hq, ih, pyGet_ginsert, if_neg hq']

theorem pyGet_foldl_gstep_none (h : List (Option Record)) :
    ∀ (acc : List (String × List ℚ)) (q : String),
      pyGet (h.foldl gstep acc) q = none ↔ (pyGet acc q = none ∧ typeTimes h q = []) := by
  induction h with
  | nil => intro acc q; simp [typeTimes]
  | cons o tl ih =>
    intro acc q
    cases o with
    | none => simpa [gstep, typeTimes_cons_none] using ih acc q
    | some r =>
      simp only [List.foldl_cons, gstep, typeTimes_cons_some]
      by_cases hq : r.type = q
      · subst hq
        rw [if_pos rfl, ih, pyGet_ginsert, if_pos rfl]
        simp
      · have hq' : ¬q = r.type := fun hh => hq hh.symm
        rw [if_neg hq, ih, pyGet_ginsert, if_neg hq']

theorem pyGet_groupTimes (h : List (Option Record)) (q : String) :
    pyGet (groupTimes h) q =
      if typeTimes h q = [] then none else some (typeTimes h q) := by
  have h2 := pyGet_foldl_gstep_none h [] q
  by_cases he : typeTimes h q = []
  · rw [if_pos he]
    exact h2.mpr ⟨rfl, he⟩
  · rw [if_neg he]
    cases hc : pyGet (groupTimes h) q with
    | none => exact absurd ((h2.mp hc).2) he
    | some v =>
      have h1 := pyGet_foldl_gstep_getD h [] q
      rw [show groupTimes h = h.foldl gstep [] from rfl] at hc
      rw [hc] at h1
      simp [pyGet] at h1
      rw [h1]

theorem ginsert_keys (d : List (String × List ℚ)) (k : String) (t : ℚ) :
    (ginsert d k t).map Prod.fst =
      if k ∈ d.map Prod.fst then d.map Prod.fst else d.map Prod.fst ++ [k] := by
  induction d with
  | nil => simp [ginsert]
  | cons hd tl ih =>
    obtain ⟨k', v⟩ := hd
    by_cases hk : k' = k
    · subst hk; simp [ginsert]
    · have hk' : ¬k = k' := fun hh => hk hh.symm
      by_cases hmem : k ∈ tl.map Prod.fst <;>
        simp [ginsert, hk, ih, hmem, hk']

theorem ginsert_keys_nodup (d : List (String × List ℚ)) (k : String) (t : ℚ)
    (hnd : (d.map Prod.fst).Nodup) : ((ginsert d k t).map Prod.fst).Nodup := by
  rw [ginsert_keys]
  by_cases hmem : k ∈ d.map Prod.fst
  · rw [if_pos hmem]; exact hnd
  · rw [if_neg hmem, List.nodup_append]
    refine ⟨hnd, List.nodup_singleton k, ?_⟩
    intro a ha hb
    rw [List.mem_singleton] at hb
    subst hb
    exact hmem ha

theorem foldl_gstep_keys_nodup (h : List (Option Record)) :
    ∀ acc : List (String × List ℚ), (acc.map Prod.fst).Nodup →
      ((h.foldl gstep acc).map Prod.fst).Nodup := by
  induction h with
  | nil => intro acc hacc; simpa using hacc
  | cons o tl ih =>
    intro acc hacc
    cases o with
    | none => exact ih acc hacc
    | some r => exact ih _ (ginsert_keys_nodup acc r.type r.timestamp hacc)

theorem groupTimes_keys_nodup (h : List (Option Record)) :
    ((groupTimes h).map Prod.fst).Nodup :=
  foldl_gstep_keys_nodup h [] (by simp)

theorem pyGet_eq_none_iff {α : Type} (d : List (String × α)) (q : String) :
    pyGet d q = none ↔ q ∉ d.map Prod.fst := by
  induction d with
  | nil => simp [pyGet]
  | cons hd tl ih =>
    obtain ⟨k, v⟩ := hd
    by_cases hq : q = k <;> simp [pyGet, hq, ih]

theorem pyGet_filterMap_statsOf (d : List (String × List ℚ)) (q : String)
    (hnd : (d.map Prod.fst).Nodup) :
    pyGet (d.filterMap (fun kv => (statsOf kv.2).map (fun s => (kv.1, s)))) q =
      (pyGet d q).bind statsOf := by
  induction d with
  | nil => simp [pyGet]
  | cons hd tl ih =>
    obtain ⟨k, v⟩ := hd
    rw [List.map_cons, List.nodup_cons] at hnd
    obtain ⟨hknotin, hnd'⟩ := hnd
    rw [List.filterMap_cons]
    cases hs : statsOf v with
    | some s =>
      simp only [Option.map_some']
      by_cases hq : q = k
      · subst hq; simp [pyGet_cons, hs]
      · simp [pyGet_cons, hq, ih hnd']
    | none =>
      by_cases hq : q = k
      · subst hq
        have hnotin2 : q ∉ (tl.filterMap
            (fun kv => (statsOf kv.2).map (fun s => (kv.1, s)))).map Prod.fst := by
          intro hmem
          apply hknotin
          obtain ⟨⟨k2, s2⟩, hk2, hk2q⟩ := List.mem_map.mp hmem
          simp only at hk2q
          obtain ⟨⟨k3, v3⟩, hk3, hfk3⟩ := List.mem_filterMap.mp hk2
          cases hsv : statsOf v3 with
          | none => rw [hsv] at hfk3; simp at hfk3
          | some s3 =>
            rw [hsv] at hfk3
            simp at hfk3
            obtain ⟨hkk, _⟩ := hfk3
            refine List.mem_map.mpr ⟨(k3, v3), hk3, ?_⟩
            simp only
            rw [hkk]
            exact hk2q
        have hL := (pyGet_eq_none_iff
          (tl.filterMap (fun kv => (statsOf kv.2).map (fun s => (kv.1, s)))) q).mpr hnotin2
        simp [pyGet_cons, hs, hL]
      · simp [pyGet_cons, hq, ih hnd']

theorem pyGet_make_stats (h : List (Option Record)) (q : String) :
    pyGet (make_stats h) q = (pyGet (groupTimes h) q).bind statsOf :=
  pyGet_filterMap_statsOf (groupTimes h) q (groupTimes_keys_nodup h)

theorem statsOf_count (v : List ℚ) (s : Stats) (hs : statsOf v = some s) :
    s.count = v.length := by
  simp only [statsOf] at hs
  by_cases hz : (((v.zip v.tail).map (fun p => p.2 - p.1)).sum : ℚ) = 0
  · rw [if_pos hz] at hs
    exact absurd hs (by simp)
  · rw [if_neg hz, Option.some_inj] at hs
    rw [← hs]

/-- C3, counterexample.  `make_stats` applies no trailing-window filter:
for a history of two `UFW_BLOCK` events 100 hours apart, it reports
`count = 2` (and a rate over the 100-hour gap), although only one event
lies inside a 1-hour window ending at the later arrival — the claim
demands `count = 1` there. -/
theorem make_stats_counts_event_outside_window :
    pyGet (make_stats farApartHistory) "UFW_BLOCK" = some ⟨1 / 6000, 2⟩ ∧
    spec_inWindowCount farApartHistory "UFW_BLOCK" 360000 1 = 1 ∧ (2 : ℕ) ≠ 1 := by
  refine ⟨?_, ?_, by decide⟩
  · simp [make_stats, groupTimes, farApartHistory, gstep, ginsert, mkRec, statsOf, pyGet]
    norm_num
  · simp [spec_inWindowCount, typeTimes, farApartHistory, mkRec, List.filter]
    norm_num

/-- C3, amended.  `make_stats` considers every event in the history
regardless of any query time or window: whenever a type is reported, its
count is the number of that type's events in the entire history, and the
whole statistics entry is computed from that full timestamp list. -/
theorem make_stats_aggregates_entire_history (h : List (Option Record)) (q : String) (s : Stats)
    (hs : pyGet (make_stats h) q = some s) :
    s.count = (typeTimes h q).length ∧ statsOf (typeTimes h q) = some s := by
  rw [pyGet_make_stats, pyGet_groupTimes] at hs
  by_cases he : typeTimes h q = []
  · rw [if_pos he] at hs; exact absurd hs (by simp)
  · rw [if_neg he] at hs
    rw [Option.some_bind] at hs
    exact ⟨statsOf_count _ _ hs, hs⟩

/-- Witness for `make_stats_aggregates_entire_history` at the two-event
history 100 hours apart. -/
theorem make_stats_aggregates_entire_history_witness :
    (⟨1 / 6000, 2⟩ : Stats).count = (typeTimes farApartHistory "UFW_BLOCK").length ∧
    statsOf (typeTimes farApartHistory "UFW_BLOCK") = some ⟨1 / 6000, 2⟩ :=
  make_stats_aggregates_entire_history farApartHistory "UFW_BLOCK" ⟨1 / 6000, 2⟩ (by
    simp [make_stats, groupTimes, farApartHistory, gstep, ginsert, mkRec, statsOf, pyGet]
    norm_num)

/-- C4, counterexample.  A history with exactly one `SSH_INVALID` event
yields an empty statistics dict — the type is omitted entirely, not
reported with `count = 1` and a null rate; and a type with a single
positive gap (fewer than 2 gaps) is reported with a computed rate
`60/120·1 = 1/2`, not a null rate. -/
theorem make_stats_omits_single_event_type :
    make_stats [some (mkRec "SSH_INVALID" 5)] = [] ∧
    pyGet (make_stats [some (mkRec "SSH_INVALID" 5)]) "SSH_INVALID" = none ∧
    pyGet (make_stats [some (mkRec "T" 0), some (mkRec "T" 120)]) "T" =
      some ⟨1 / 2, 2⟩ := by
  refine ⟨?_, ?_, ?_⟩
  · simp [make_stats, groupTimes, gstep, ginsert, mkRec, statsOf]
  · simp [make_stats, groupTimes, gstep, ginsert, mkRec, statsOf, pyGet]
  · simp [make_stats, groupTimes, gstep, ginsert, mkRec, statsOf, pyGet]
    norm_num

/-- C4, amended.  For every record type whose inter-arrival gaps sum to
zero seconds (one event, or all events at the same instant), `make_stats`
never divides by zero: the `ZeroDivisionError` is caught and the type is
omitted from the result entirely (no count is reported); a type with two
events one positive gap apart is reported with the computed rate
`60/(t1-t0)`. -/
theorem make_stats_zero_gapsum_omission :
    (∀ (h : List (Option Record)) (q : String), typeTimes h q ≠ [] →
      tdiffSum (typeTimes h q) = 0 → pyGet (make_stats h) q = none) ∧
    (∀ (k : String) (t0 t1 : ℚ), t1 ≠ t0 →
      pyGet (make_stats [some (mkRec k t0), some (mkRec k t1)]) k =
        some ⟨60 / (t1 - t0), 2⟩) := by
  constructor
  · intro h q hne hz
    rw [pyGet_make_stats, pyGet_groupTimes, if_neg hne]
    rw [Option.some_bind]
    simp only [statsOf, tdiffSum] at hz ⊢
    rw [if_pos hz]
  · intro k t0 t1 hne
    have hne' : t1 - t0 ≠ 0 := sub_ne_zero_of_ne hne
    simp [make_stats, groupTimes, gstep, ginsert, mkRec, statsOf, pyGet, hne']

/-- Witness for `make_stats_zero_gapsum_omission` at a one-event history
and at a two-event history 120 s apart. -/
theorem make_stats_zero_gapsum_omission_witness :
    pyGet (make_stats [some (mkRec "SSH_INVALID" 7)]) "SSH_INVALID" = none ∧
    pyGet (make_stats [some (mkRec "W" 0), some (mkRec "W" 120)]) "W" =
      some ⟨60 / ((120 : ℚ) - 0), 2⟩ :=
  ⟨make_stats_zero_gapsum_omission.1 [some (mkRec "SSH_INVALID" 7)] "SSH_INVALID"
      (by simp [typeTimes, mkRec]) (by simp [tdiffSum, typeTimes, mkRec]),
   make_stats_zero_gapsum_omission.2 "W" 0 120 (by norm_num)⟩

/-- C7.  A history of exactly 5 events of one type spaced at exactly
2-minute (120 s) intervals yields `count = 5` and an events-per-minute
rate of `1/2` — the value of `60 / sum(gap_seconds) * number_of_gaps`,
the reciprocal of the mean 2-minute gap. -/
theorem make_stats_five_events_two_minute_gaps (k : String) (t0 : ℚ) :
    make_stats [some (mkRec k t0), some (mkRec k (t0 + 120)), some (mkRec k (t0 + 240)),
      some (mkRec k (t0 + 360)), some (mkRec k (t0 + 480))] = [(k, ⟨1 / 2, 5⟩)] := by
  simp [make_stats, groupTimes, gstep, ginsert, mkRec, statsOf]
  norm_num

/-! C6 machinery -/

theorem stringMk_toList (s : String) : String.mk s.toList = s := rfl

theorem findSplit_singleton_none (c : Char) (cs : List Char) (h : c ∉ cs) :
    findSplit [c] cs = none := by
  induction cs with
  | nil => rfl
  | cons b bs ih =>
    rw [List.mem_cons, not_or] at h
    simp [findSplit, isPrefixList, h.1, ih h.2]

theorem findSplit_singleton_pair (c : Char) (ks vs : List Char) (hk : c ∉ ks) :
    findSplit [c] (ks ++ c :: vs) = some (ks, vs) := by
  induction ks with
  | nil => simp [findSplit, isPrefixList]
  | cons b bs ih =>
    rw [List.mem_cons, not_or] at hk
    simp [findSplit, isPrefixList, hk.1, ih hk.2]

theorem splitListF_singleton_none (c : Char) (cs : List Char) (h : c ∉ cs) (fuel : ℕ) :
    splitListF [c] (fuel + 1) cs = [cs] := by
  simp [splitListF, findSplit_singleton_none c cs h]

theorem splitListF_singleton_pair (c : Char) (ks vs : List Char) (hk : c ∉ ks) (hv : c ∉ vs)
    (fuel : ℕ) (hf : 2 ≤ fuel) : splitListF [c] fuel (ks ++ c :: vs) = [ks, vs] := by
  obtain ⟨f, rfl⟩ : ∃ f, fuel = f + 2 := ⟨fuel - 2, by omega⟩
  simp [splitListF, findSplit_singleton_pair c ks vs hk,
    findSplit_singleton_none c vs hv]

theorem pySplit_eq_pair (k v : String) (hk : '=' ∉ k.toList) (hv : '=' ∉ v.toList) :
    pySplit (k ++ "=" ++ v) "=" = [k, v] := by
  have htl : (k ++ "=" ++ v).toList = k.toList ++ '=' :: v.toList := by
    rw [show (k ++ "=" ++ v).toList = (k.toList ++ ['=']) ++ v.toList from rfl,
      List.append_assoc]
    rfl
  rw [pySplit, if_neg (by decide), show ("=" : String).toList = ['='] from rfl, htl,
    splitListF_singleton_pair '=' k.toList v.toList hk hv _
      (by simp [List.length_append]; omega)]
  simp [stringMk_toList]

theorem pySplit_eq_left (k : String) (hk : '=' ∉ k.toList) :
    pySplit (k ++ "=") "=" = [k, ""] := by
  have htl : (k ++ "=").toList = k.toList ++ '=' :: ([] : List Char) := rfl
  rw [pySplit, if_neg (by decide), show ("=" : String).toList = ['='] from rfl, htl,
    splitListF_singleton_pair '=' k.toList [] hk (by simp) _
      (by simp [List.length_append])]
  simp [stringMk_toList]

theorem pySplit_no_eq (s : String) (h : '=' ∉ s.toList) :
    pySplit s "=" = [s] := by
  rw [pySplit, if_neg (by decide), show ("=" : String).toList = ['='] from rfl,
    splitListF_singleton_none '=' s.toList h]
  simp [stringMk_toList]

/-- C6.  The firewall-block field extraction maps each `KEY=VALUE` token
to an entry (an empty value becomes null/`none`), ignores tokens without
`=`, and on the payload `SRC=1.2.3.4 DPT=22 PROTO=TCP` yields exactly
`{SRC: "1.2.3.4", DPT: "22", PROTO: "TCP"}`, whose `SRC` entry — the
record's IP field — is `"1.2.3.4"`. -/
theorem parse_ufw_block_field_extraction :
    (∀ (d : List (String × Option String)) (k v : String),
        '=' ∉ k.toList → '=' ∉ v.toList → v ≠ "" →
        ufwStep d (k ++ "=" ++ v) = dinsert d k (some v)) ∧
    (∀ (d : List (String × Option String)) (k : String),
        '=' ∉ k.toList → ufwStep d (k ++ "=") = dinsert d k none) ∧
    (∀ (d : List (String × Option String)) (s : String),
        '=' ∉ s.toList → ufwStep d s = d) ∧
    ufwFields (pySplit "SRC=1.2.3.4 DPT=22 PROTO=TCP" " ") =
      [("SRC", some "1.2.3.4"), ("DPT", some "22"), ("PROTO", some "TCP")] ∧
    pyGet (ufwFields (pySplit "SRC=1.2.3.4 DPT=22 PROTO=TCP" " ")) "SRC" =
      some (some "1.2.3.4") := by
  refine ⟨?_, ?_, ?_, by decide, by decide⟩
  · intro d k v hk hv hvne
    simp [ufwStep, pySplit_eq_pair k v hk hv, hvne]
  · intro d k hk
    simp [ufwStep, pySplit_eq_left k hk]
  · intro d s h
    simp [ufwStep, pySplit_no_eq s h]

/-- Witness for `parse_ufw_block_field_extraction` at concrete tokens. -/
theorem parse_ufw_block_field_extraction_witness :
    ufwStep [] ("SRC" ++ "=" ++ "1.2.3.4") = dinsert [] "SRC" (some "1.2.3.4") ∧
    ufwStep [] ("DPT" ++ "=") = dinsert [] "DPT" none ∧
    ufwStep [] "PROTO" = [] := by
  refine ⟨parse_ufw_block_field_extraction.1 [] "SRC" "1.2.3.4" (by decide) (by decide) (by decide),
    parse_ufw_block_field_extraction.2.1 [] "DPT" (by decide), parse_ufw_block_field_extraction.2.2.1 [] "PROTO" (by decide)⟩

/-- C5.  For a logline on which the first SSH sub-format
(`": Invalid user "`) fails with `ValueError` but the second
(`": Connection closed by authenticating user "`) parses, the variant
loop returns the second sub-format's layout: DPT from payload token 3,
SRC from token 1, USERNAME from token 0 — sub-formats are tried in the
declared priority order and the first success is returned. -/
theorem parse_ssh_invalid_second_variant_fallback (year : ℕ) (ll : Logline) (c : Common) (payload : List String)
    (dpt src user : String)
    (h1 : record_parse year ll ": Invalid user " = .error .valueError)
    (h2 : record_parse year ll ": Connection closed by authenticating user " =
      .ok (c, payload))
    (h3 : payload[3]? = some dpt) (h4 : payload[1]? = some src)
    (h5 : payload[0]? = some user) :
    parse_ssh_invalid_inner year ll =
      .ok (some (c, [("DPT", some dpt), ("SRC", some src), ("USERNAME", some user)])) := by
  simp [parse_ssh_invalid_inner, sshVariants, sshTryVariants, h1, h2, h3, h4, h5]

/-- Witness for `parse_ssh_invalid_second_variant_fallback` on a real
connection-closed logline. -/
theorem parse_ssh_invalid_second_variant_fallback_witness :
    parse_ssh_invalid_inner 2026 sampleSshAuthLogline =
      .ok (some (⟨"myhost", ⟨2026, 10, 12, 2, 14, 33⟩, 200⟩,
        [("DPT", some "51515"), ("SRC", some "10.0.0.5"), ("USERNAME", some "root")])) :=
  parse_ssh_invalid_second_variant_fallback 2026 sampleSshAuthLogline ⟨"myhost", ⟨2026, 10, 12, 2, 14, 33⟩, 200⟩
    ["root", "10.0.0.5", "port", "51515", "[preauth]"] "51515" "10.0.0.5" "root"
    rfl rfl rfl rfl rfl

/-- C1, code-bug evidence.  `geo_data` has no exception handler: on a
lookup miss (or a `None` address) it raises instead of returning `None`,
and the error propagates through the `log_decorator` wrapper and `main`,
so the record does not proceed through the pipeline with a null geo
field. -/
theorem geo_lookup_failure_propagates :
    geo_data emptyGeoDB (some "10.9.9.9") = .error .geoLookupError ∧
    geo_data emptyGeoDB none = .error .geoLookupError ∧
    parse_ufw_block emptyGeoDB 2026 sampleUfwLogline = .error .geoLookupError ∧
    LogTrackingApp.main emptyGeoDB 2026 (some sampleUfwLogline) (some []) 10 =
      .error .geoLookupError :=
  ⟨rfl, rfl, rfl, rfl⟩

/-- C2, code-bug evidence.  On a logline matching neither SSH sub-format
the undecorated parser body gracefully returns `None`, but the
`log_decorator` wrapper then unpacks that `None` and raises `TypeError`,
which escapes to `main`'s caller — the record is not dropped quietly. -/
theorem unparsable_ssh_raises_type_error :
    parse_ssh_invalid_inner 2026 sampleSshBadLogline = .ok none ∧
    parse_ssh_invalid emptyGeoDB 2026 sampleSshBadLogline = .error .typeError ∧
    LogTrackingApp.main emptyGeoDB 2026 (some sampleSshBadLogline) (some []) 10 =
      .error .typeError :=
  ⟨rfl, rfl, rfl⟩

/-! C8 machinery -/

theorem streamLine_length (ms : List LogStream.Regex) (line : String) :
    (LogStream.streamLine ms line).length =
      ms.countP (fun m => m (pyStrip line)) := by
  induction ms with
  | nil => rfl
  | cons m rest ih =>
    rw [LogStream.streamLine, List.length_append, ih, List.countP_cons]
    by_cases hm : m (pyStrip line) <;>
      simp [LogStream._matches, hm, Nat.add_comm]

theorem streamLine_mem (ms : List LogStream.Regex) (line : String) :
    ∀ r ∈ LogStream.streamLine ms line, r = pyStrip line := by
  induction ms with
  | nil => intro r hr; simp [LogStream.streamLine] at hr
  | cons m rest ih =>
    intro r hr
    rw [LogStream.streamLine, List.mem_append] at hr
    rcases hr with hr | hr
    · by_cases hm : m (pyStrip line) <;>
        simp [LogStream._matches, hm] at hr
      exact hr
    · exact ih r hr

theorem streamLine_append (ms ms' : List LogStream.Regex) (line : String) :
    LogStream.streamLine (ms ++ ms') line =
      LogStream.streamLine ms line ++ LogStream.streamLine ms' line := by
  induction ms with
  | nil => simp [LogStream.streamLine]
  | cons m rest ih => simp [LogStream.streamLine, ih]

/-- C8.  Per line, the dispatcher posts the stripped line exactly once
per matching pattern: the number of posts equals the number of matching
patterns (no short-circuit — appending further matchers contributes their
posts independently), and every post is the stripped line. -/
theorem stream_forwards_once_per_matching_pattern (ms ms' : List LogStream.Regex) (line : String) :
    (LogStream.streamLine ms line).length = ms.countP (fun m => m (pyStrip line)) ∧
    (∀ r ∈ LogStream.streamLine ms line, r = pyStrip line) ∧
    LogStream.streamLine (ms ++ ms') line =
      LogStream.streamLine ms line ++ LogStream.streamLine ms' line :=
  ⟨streamLine_length ms line, streamLine_mem ms line, streamLine_append ms ms' line⟩

/-- Witness for `stream_forwards_once_per_matching_pattern` with three
matchers, two of which match. -/
theorem stream_forwards_once_per_matching_pattern_witness :
    (LogStream.streamLine regsW "  alpha  ").length =
      List.countP (fun m => m (pyStrip "  alpha  ")) regsW ∧
    "alpha" = pyStrip "  alpha  " ∧
    LogStream.streamLine (regsW ++ regsW) "  alpha  " =
      LogStream.streamLine regsW "  alpha  " ++ LogStream.streamLine regsW "  alpha  " := by
  have h := stream_forwards_once_per_matching_pattern regsW regsW "  alpha  "
  exact ⟨h.1, h.2.1 "alpha" (by decide), h.2.2⟩

/-! C9 machinery -/

theorem tail_invariant (contentAt : ℕ → List String)
    (hgrow : ∀ i, ∃ t, contentAt (i + 1) = contentAt i ++ t) :
    ∀ k, (contentAt 0).length ≤ (LogStream.tail contentAt k).2 ∧
      (LogStream.tail contentAt k).2 ≤ (contentAt k).length ∧
      (LogStream.tail contentAt k).1 =
        ((contentAt k).take (LogStream.tail contentAt k).2).drop (contentAt 0).length := by
  intro k
  induction k with
  | zero =>
    refine ⟨le_refl _, le_refl _, ?_⟩
    simp [LogStream.tail]
  | succ k ih =>
    obtain ⟨hN, hle, hys⟩ := ih
    obtain ⟨t, ht⟩ := hgrow k
    cases hread : (contentAt (k + 1))[(LogStream.tail contentAt k).2]? with
    | none =>
      have hstep : LogStream.tail contentAt (k + 1) = LogStream.tail contentAt k := by
        rw [LogStream.tail, hread]
      have hlen : (contentAt (k + 1)).length ≤ (LogStream.tail contentAt k).2 :=
        List.getElem?_eq_none_iff.mp hread
      have ht0 : t = [] := by
        rw [ht, List.length_append] at hlen
        have := hle
        exact List.eq_nil_of_length_eq_zero (by omega)
      have hteq : contentAt (k + 1) = contentAt k := by rw [ht, ht0, List.append_nil]
      rw [hstep, hteq]
      exact ⟨hN, hle, hys⟩
    | some l =>
      have hstep : LogStream.tail contentAt (k + 1) =
          ((LogStream.tail contentAt k).1 ++ [l], (LogStream.tail contentAt k).2 + 1) := by
        rw [LogStream.tail, hread]
      obtain ⟨hlt, hget⟩ := List.getElem?_eq_some_iff.mp hread
      have htake : (contentAt (k + 1)).take ((LogStream.tail contentAt k).2) =
          (contentAt k).take ((LogStream.tail contentAt k).2) := by
        rw [ht]
        exact List.take_append_of_le_length hle
      rw [hstep]
      refine ⟨le_trans hN (Nat.le_succ _), hlt, ?_⟩
      show (LogStream.tail contentAt k).1 ++ [l] =
        ((contentAt (k + 1)).take ((LogStream.tail contentAt k).2 + 1)).drop
          (contentAt 0).length
      rw [List.take_succ, hread, show (some l).toList = [l] from rfl, htake,
        List.drop_append_of_le_length (by rw [List.length_take]; omega), hys]

/-- C9.  For a monotonically growing file, after any number of steps the
Tailer's read position never lies before the initial end of file (none of
the pre-existing lines is ever delivered), the delivered lines are
exactly the contiguous file segment from the initial end of file up to
the read position, in append order; at end of file a step sleeps and
leaves the state unchanged (the generator never terminates), and whenever
a new line is available a step delivers it and advances the position. -/
theorem tail_skips_preexisting_and_delivers_in_order (contentAt : ℕ → List String)
    (hgrow : ∀ i, ∃ t, contentAt (i + 1) = contentAt i ++ t) (k : ℕ) :
    (contentAt 0).length ≤ (LogStream.tail contentAt k).2 ∧
    (LogStream.tail contentAt k).1 =
      ((contentAt k).take (LogStream.tail contentAt k).2).drop (contentAt 0).length ∧
    ((contentAt (k + 1)).length ≤ (LogStream.tail contentAt k).2 →
      LogStream.tail contentAt (k + 1) = LogStream.tail contentAt k) ∧
    ((LogStream.tail contentAt k).2 < (contentAt (k + 1)).length →
      (LogStream.tail contentAt (k + 1)).2 = (LogStream.tail contentAt k).2 + 1) := by
  obtain ⟨hN, hle, hys⟩ := tail_invariant contentAt hgrow k
  refine ⟨hN, hys, ?_, ?_⟩
  · intro hlen
    rw [LogStream.tail, List.getElem?_eq_none_iff.mpr hlen]
  · intro hlt
    cases hread : (contentAt (k + 1))[(LogStream.tail contentAt k).2]? with
    | none =>
      exact absurd (List.getElem?_eq_none_iff.mp hread) (by omega)
    | some l =>
      rw [LogStream.tail, hread]

/-- Witness for `tail_skips_preexisting_and_delivers_in_order` on a file
with two pre-existing lines and one `"x"` appended per step. -/
theorem tail_skips_preexisting_and_delivers_in_order_witness :
    LogStream.tail tailContentW 3 = (["x", "x", "x"], 5) ∧
    (tailContentW 0).length ≤ (LogStream.tail tailContentW 3).2 ∧
    (LogStream.tail tailContentW 3).1 =
      ((tailContentW 3).take (LogStream.tail tailContentW 3).2).drop
        (tailContentW 0).length := by
  have hgrow : ∀ i, ∃ t, tailContentW (i + 1) = tailContentW i ++ t := by
    intro i
    exact ⟨["x"], by simp [tailContentW, List.replicate_succ']⟩
  have h := tail_skips_preexisting_and_delivers_in_order tailContentW hgrow 3
  exact ⟨by decide, h.1, h.2.1⟩

/-- C10.  For every prior record list, `main` on a falsy logline produces
no new record and computes its stats and page over an empty history: the
prior list is discarded from the output rather than carried through. -/
theorem main_falsy_logline_discards_history (db : GeoDB) (year : ℕ) (record : Option (List (Option Record)))
    (tablelen : ℕ) :
    LogTrackingApp.main db year none record tablelen =
      .ok ⟨none, make_page [] tablelen [], []⟩ ∧
    make_stats ([] : List (Option Record)) = [] :=
  ⟨rfl, rfl⟩
